import Mathlib

/-!
Shallow embedding of the cartesi-notary-office-dapp core (Rust) in Lean 4.

Modelling conventions:
* Rust `u8` bytes are `UInt8`; 32-bit word arithmetic is `Nat` with explicit
  truncation `% 2^32`.
* Ambient effects (UUID generation, wall clock) are passed in as explicit
  arguments (`id`, `created_at`).
* `&self`-mutating repository calls (SQLite) are modelled by explicit state
  passing: every repository operation returns its result together with the
  (possibly updated) store state.
-/

namespace NotaryDapp

set_option maxRecDepth 8192

/-! ## SHA-256 (models the `sha2` crate's `Sha256`, used by `Document::new`) -/

/-- Truncate to a 32-bit word. -/
def w32 (n : Nat) : Nat := n % 4294967296

/-- Right rotation of a 32-bit word by `n` bits. -/
def rotr32 (n w : Nat) : Nat := w32 (w / 2 ^ n + w % 2 ^ n * 2 ^ (32 - n))

/-- Logical right shift. -/
def shr (n w : Nat) : Nat := w / 2 ^ n

def bsig0 (x : Nat) : Nat := rotr32 2 x ^^^ rotr32 13 x ^^^ rotr32 22 x

def bsig1 (x : Nat) : Nat := rotr32 6 x ^^^ rotr32 11 x ^^^ rotr32 25 x

def ssig0 (x : Nat) : Nat := rotr32 7 x ^^^ rotr32 18 x ^^^ shr 3 x

def ssig1 (x : Nat) : Nat := rotr32 17 x ^^^ rotr32 19 x ^^^ shr 10 x

def chf (x y z : Nat) : Nat := (x &&& y) ^^^ ((x ^^^ 4294967295) &&& z)

def majf (x y z : Nat) : Nat := (x &&& y) ^^^ (x &&& z) ^^^ (y &&& z)

/-- The SHA-256 round constants (the standard table, written in decimal). -/
def sha256K : List Nat :=
  [1116352408, 1899447441, 3049323471, 3921009573,
   961987163, 1508970993, 2453635748, 2870763221,
   3624381080, 310598401, 607225278, 1426881987,
   1925078388, 2162078206, 2614888103, 3248222580,
   3835390401, 4022224774, 264347078, 604807628,
   770255983, 1249150122, 1555081692, 1996064986,
   2554220882, 2821834349, 2952996808, 3210313671,
   3336571891, 3584528711, 113926993, 338241895,
   666307205, 773529912, 1294757372, 1396182291,
   1695183700, 1986661051, 2177026350, 2456956037,
   2730485921, 2820302411, 3259730800, 3345764771,
   3516065817, 3600352804, 4094571909, 275423344,
   430227734, 506948616, 659060556, 883997877,
   958139571, 1322822218, 1537002063, 1747873779,
   1955562222, 2024104815, 2227730452, 2361852424,
   2428436474, 2756734187, 3204031479, 3329325298]

/-- The eight 32-bit words of a SHA-256 digest / chaining state. -/
structure Digest where
  h0 : Nat
  h1 : Nat
  h2 : Nat
  h3 : Nat
  h4 : Nat
  h5 : Nat
  h6 : Nat
  h7 : Nat

/-- The SHA-256 initial hash value (the standard words, in decimal). -/
def initDigest : Digest :=
  ⟨1779033703, 3144134277, 1013904242, 2773480762,
   1359893119, 2600822924, 528734635, 1541459225⟩

/-- Append the next word of the SHA-256 message schedule. -/
def scheduleStep (ws : List Nat) : List Nat :=
  let n := ws.length
  ws ++ [w32 (ssig1 (ws.getD (n - 2) 0) + ws.getD (n - 7) 0 +
              ssig0 (ws.getD (n - 15) 0) + ws.getD (n - 16) 0)]

/-- Extend the 16-word block to the 64-word schedule (48 steps). -/
def extendSchedule : Nat → List Nat → List Nat
  | 0, ws => ws
  | n + 1, ws => extendSchedule n (scheduleStep ws)

/-- Working registers of the compression function. -/
structure Regs where
  a : Nat
  b : Nat
  c : Nat
  d : Nat
  e : Nat
  f : Nat
  g : Nat
  h : Nat

/-- One SHA-256 round; `kw` is the pair of round constant and schedule word. -/
def sha256Round (r : Regs) (kw : Nat × Nat) : Regs :=
  let t1 := w32 (r.h + bsig1 r.e + chf r.e r.f r.g + kw.1 + kw.2)
  let t2 := w32 (bsig0 r.a + majf r.a r.b r.c)
  ⟨w32 (t1 + t2), r.a, r.b, r.c, w32 (r.d + t1), r.e, r.f, r.g⟩

/-- Compress one 16-word block into the chaining state. -/
def compressBlock (d : Digest) (block : List Nat) : Digest :=
  let ws := extendSchedule 48 block
  let r0 : Regs := ⟨d.h0, d.h1, d.h2, d.h3, d.h4, d.h5, d.h6, d.h7⟩
  let r := (sha256K.zip ws).foldl sha256Round r0
  ⟨w32 (d.h0 + r.a), w32 (d.h1 + r.b), w32 (d.h2 + r.c), w32 (d.h3 + r.d),
   w32 (d.h4 + r.e), w32 (d.h5 + r.f), w32 (d.h6 + r.g), w32 (d.h7 + r.h)⟩

/-- Big-endian bytes (fixed width `k`) of a natural number. -/
def natToBytesBE : Nat → Nat → List Nat
  | 0, _ => []
  | k + 1, n => natToBytesBE k (n / 256) ++ [n % 256]

/-- SHA-256 padding: append `0x80`, zeros, and the 64-bit bit length. -/
def padMessage (m : List Nat) : List Nat :=
  let L := m.length
  let k := (119 - L % 64) % 64
  m ++ [128] ++ List.replicate k 0 ++ natToBytesBE 8 (8 * L)

/-- Pack bytes into big-endian 32-bit words (length assumed a multiple of 4). -/
def bytesToWords : List Nat → List Nat
  | b1 :: b2 :: b3 :: b4 :: rest =>
      (((b1 * 256 + b2) * 256 + b3) * 256 + b4) :: bytesToWords rest
  | _ => []

/-- Split a word list into 16-word blocks. -/
def chunkWords (ws : List Nat) : List (List Nat) :=
  if h : ws = [] then []
  else ws.take 16 :: chunkWords (ws.drop 16)
termination_by ws.length
decreasing_by
  simp only [List.length_drop]
  have := List.length_pos.mpr h
  omega

/-- SHA-256 of a byte sequence, as the eight digest words. -/
def sha256Words (content : List Nat) : Digest :=
  (chunkWords (bytesToWords (padMessage content))).foldl compressBlock initDigest

/-- The sixteen lowercase hex digits. -/
def hexDigitChars : List Char := "0123456789abcdef".data

/-- Lowercase hex digit of `n % 16`. -/
def hexDigitChar (n : Nat) : Char := hexDigitChars.getD (n % 16) '0'

/-- The eight lowercase hex characters of a 32-bit word (most significant first);
models how `format!` with the lower-hex formatter renders each digest byte
two zero-padded lowercase digits at a time. -/
def wordHexChars (w : Nat) : List Char :=
  [hexDigitChar (w / 16 ^ 7), hexDigitChar (w / 16 ^ 6), hexDigitChar (w / 16 ^ 5),
   hexDigitChar (w / 16 ^ 4), hexDigitChar (w / 16 ^ 3), hexDigitChar (w / 16 ^ 2),
   hexDigitChar (w / 16 ^ 1), hexDigitChar w]

/-- All 64 hex characters of a digest. -/
def digestHexChars (d : Digest) : List Char :=
  wordHexChars d.h0 ++ wordHexChars d.h1 ++ wordHexChars d.h2 ++ wordHexChars d.h3 ++
  wordHexChars d.h4 ++ wordHexChars d.h5 ++ wordHexChars d.h6 ++ wordHexChars d.h7

/-- `format!` lower-hex rendering of `Sha256::digest(content)`:
the 64-character lowercase hex digest string. -/
def sha256Hex (content : List UInt8) : String :=
  String.mk (digestHexChars (sha256Words (content.map UInt8.toNat)))

/-! ## Domain model (src/domain/document.rs, src/domain/receipt.rs) -/

/-- Models `Document` (src/domain/document.rs). -/
structure Document where
  id : String
  content_hash : String
  file_name : String
  mime_type : String
  submitted_by : String
  created_at : Int
deriving DecidableEq

/-- Models `Document::new`. The UUID and the wall-clock timestamp are ambient
effects in the Rust code; they are passed in here as `id` and `created_at`. -/
def Document.new (content : List UInt8) (file_name mime_type submitted_by : String)
    (id : String) (created_at : Int) : Document :=
  { id := id
    content_hash := sha256Hex content
    file_name := file_name
    mime_type := mime_type
    submitted_by := submitted_by
    created_at := created_at }

/-- Models `NotarizationReceipt` (src/domain/receipt.rs). -/
structure NotarizationReceipt where
  document_id : String
  content_hash : String
  notarized_at : Int
  block_number : Nat
  proof : String
deriving DecidableEq

/-- Models `NotarizationReceipt::new`: `proof` is
`format!("sha256:{}@{}", content_hash, notarized_at)`. -/
def NotarizationReceipt.new (document_id content_hash : String)
    (notarized_at : Int) (block_number : Nat) : NotarizationReceipt :=
  { document_id := document_id
    content_hash := content_hash
    notarized_at := notarized_at
    block_number := block_number
    proof := "sha256:" ++ content_hash ++ "@" ++ toString notarized_at }

/-! ## Store errors and the repository interface
(src/infrastructure/database.rs) -/

/-- Models the dynamic (`Box<dyn Error>`) errors that flow out of a
`DocumentRepository`: the `DatabaseError` variants of database.rs plus an
`other` case for any error type a different trait implementation may box. -/
inductive DynError where
  | dbSqlite (msg : String)
  | dbNotFound
  | dbDuplicateHash
  | other (msg : String)
deriving DecidableEq

/-- The `Display` rendering of a boxed store error (`e.to_string()`); the
`DatabaseError` variants render the `thiserror` messages of database.rs. -/
def DynError.toString : DynError → String
  | .dbSqlite msg => "Database error: " ++ msg
  | .dbNotFound => "Document not found"
  | .dbDuplicateHash => "Duplicate document hash"
  | .other msg => msg

/-- Models the `DocumentRepository` trait object held by the use cases.
`σ` is the store's internal state; each operation returns its result together
with the state after the call (SQLite mutates behind `&self`). -/
structure DocumentRepository (σ : Type) where
  find_by_hash : σ → String → Except DynError Document × σ
  save_document : σ → Document → Except DynError Unit × σ

/-- Models `SqliteRepository` over its observable state: the rows of the
`documents` table. `save_document` models `INSERT` under the `id` PRIMARY KEY
and `content_hash` UNIQUE constraints — a constraint violation is reported as
`DuplicateHash` and leaves the table unchanged; `find_by_hash` models the
`SELECT ... WHERE content_hash = ?1` lookup, `NotFound` when no row matches. -/
def SqliteRepository : DocumentRepository (List Document) where
  find_by_hash st hash :=
    match st.find? (fun d => d.content_hash == hash) with
    | some d => (.ok d, st)
    | none => (.error .dbNotFound, st)
  save_document st doc :=
    if st.any (fun d => d.content_hash == doc.content_hash || d.id == doc.id) then
      (.error .dbDuplicateHash, st)
    else
      (.ok (), st ++ [doc])

/-! ## Notarize use case (src/application/notarize.rs) -/

/-- Models `NotarizeError`. -/
inductive NotarizeError where
  | EmptyContent
  | EmptyFilename
  | DuplicateDocument
  | DatabaseError (msg : String)
deriving DecidableEq

/-- The `thiserror` `Display` messages of `NotarizeError`. -/
def NotarizeError.toString : NotarizeError → String
  | .EmptyContent => "Content cannot be empty"
  | .EmptyFilename => "Filename cannot be empty"
  | .DuplicateDocument => "Document with this content hash already exists"
  | .DatabaseError msg => "Database error: " ++ msg

/-- Whitespace for `str::trim` (models Rust `char::is_whitespace` restricted
to the ASCII whitespace characters; the DApp never passes the exotic Unicode
whitespace code points). -/
def isRustWhitespace (c : Char) : Bool :=
  c = ' ' || c = '\t' || c = '\n' || c = '\r' || c = '\x0b' || c = '\x0c'

/-- Models Rust `str::trim`: drop whitespace from both ends. -/
def rustTrim (s : String) : String :=
  String.mk (((s.data.dropWhile isRustWhitespace).reverse.dropWhile
    isRustWhitespace).reverse)

/-- Models `NotarizeUseCase::execute`. The repository and its state stand for
the `Box<dyn DocumentRepository>` field; `id` and `created_at` are the ambient
UUID/clock inputs consumed by `Document::new`. State is threaded through the
two repository calls and returned alongside the result. -/
def NotarizeUseCase.execute {σ : Type} (repo : DocumentRepository σ) (st : σ)
    (content : List UInt8) (file_name mime_type submitted_by : String)
    (block_number : Nat) (id : String) (created_at : Int) :
    Except NotarizeError NotarizationReceipt × σ :=
  if content.isEmpty then
    (.error .EmptyContent, st)
  else if (rustTrim file_name).isEmpty then
    (.error .EmptyFilename, st)
  else
    let document := Document.new content file_name mime_type submitted_by id created_at
    match repo.find_by_hash st document.content_hash with
    | (.ok _, st') => (.error .DuplicateDocument, st')
    | (.error _, st') =>
      match repo.save_document st' document with
      | (.error e, st'') => (.error (.DatabaseError e.toString), st'')
      | (.ok _, st'') =>
        (.ok (NotarizationReceipt.new document.id document.content_hash
              document.created_at block_number), st'')

/-! ## Verify use case (src/application/verify.rs) -/

/-- Models `VerifyError`. -/
inductive VerifyError where
  | InvalidHashFormat
  | DatabaseError (msg : String)
deriving DecidableEq

/-- The `thiserror` `Display` messages of `VerifyError`. -/
def VerifyError.toString : VerifyError → String
  | .InvalidHashFormat => "Invalid hash format: must be 64 hexadecimal characters"
  | .DatabaseError msg => "Database error: " ++ msg

/-- Models `VerificationResult`. -/
structure VerificationResult where
  exists_ : Bool
  document : Option Document
  receipt : Option NotarizationReceipt
deriving DecidableEq

/-- Models `VerificationResult::not_found`. -/
def VerificationResult.not_found : VerificationResult :=
  { exists_ := false, document := none, receipt := none }

/-- Models `VerificationResult::found`: the receipt is reconstructed from the
document's own fields with `block_number` hard-coded to `0`. -/
def VerificationResult.found (document : Document) : VerificationResult :=
  { exists_ := true
    document := some document
    receipt := some (NotarizationReceipt.new document.id document.content_hash
                     document.created_at 0) }

/-- Models Rust `char::is_ascii_hexdigit`: `'0'..='9' | 'a'..='f' | 'A'..='F'`,
stated on code points (48–57, 97–102, 65–70). -/
def isAsciiHexdigit (c : Char) : Bool :=
  (48 ≤ c.toNat && c.toNat ≤ 57) || (97 ≤ c.toNat && c.toNat ≤ 102) ||
  (65 ≤ c.toNat && c.toNat ≤ 70)

/-- The UTF-8 byte length of one character (models Rust `char::len_utf8`). -/
def charUtf8Len (c : Char) : Nat :=
  if c.toNat < 0x80 then 1
  else if c.toNat < 0x800 then 2
  else if c.toNat < 0x10000 then 3
  else 4

/-- Models Rust `str::len`: the UTF-8 byte length of a string. -/
def rustStrLen (s : String) : Nat := (s.data.map charUtf8Len).sum

/-- Models `VerifyUseCase::is_valid_hash`: byte length 64 and every char an
ASCII hex digit. -/
def VerifyUseCase.is_valid_hash (hash : String) : Bool :=
  rustStrLen hash == 64 && hash.data.all isAsciiHexdigit

/-- Models `VerifyUseCase::execute`. -/
def VerifyUseCase.execute {σ : Type} (repo : DocumentRepository σ) (st : σ)
    (content_hash : String) : Except VerifyError VerificationResult × σ :=
  if !VerifyUseCase.is_valid_hash content_hash then
    (.error .InvalidHashFormat, st)
  else
    match repo.find_by_hash st content_hash with
    | (.ok document, st') => (.ok (VerificationResult.found document), st')
    | (.error _, st') => (.ok VerificationResult.not_found, st')

/-! ## JSON values (models the `json` crate's `JsonValue`) -/

/-- Models `json::JsonValue`. Numbers are restricted to integers — the only
numeric field the DApp reads is the `u64` block number. -/
inductive Json where
  | null
  | bool (b : Bool)
  | num (n : Int)
  | str (s : String)
  | arr (elems : List Json)
  | obj (fields : List (String × Json))

/-- Models `JsonValue` indexing: missing keys and non-objects yield `Null`. -/
def Json.get : Json → String → Json
  | .obj fields, key => ((fields.find? (fun f => f.1 == key)).map Prod.snd).getD .null
  | _, _ => .null

/-- Models `JsonValue::as_str`. -/
def Json.as_str : Json → Option String
  | .str s => some s
  | _ => none

/-- Models `JsonValue::as_u64`: `Some` only for non-negative integers. -/
def Json.as_u64 : Json → Option Nat
  | .num n => if 0 ≤ n then some n.toNat else none
  | _ => none

/-! ## Codecs: hex (`hex` crate), base64 (`base64` crate), UTF-8
(`std::str::from_utf8`) -/

/-- Value of a hex digit, accepting both cases (as `hex::decode` does),
written on code points: digits 48–57, lowercase 97–102, uppercase 65–70. -/
def hexVal (c : Char) : Option Nat :=
  let n := c.toNat
  if 48 ≤ n && n ≤ 57 then some (n - 48)
  else if 97 ≤ n && n ≤ 102 then some (n - 87)
  else if 65 ≤ n && n ≤ 70 then some (n - 55)
  else none

/-- Models `hex::decode` on the character list: even length, hex digits only. -/
def hexDecodeChars : List Char → Option (List UInt8)
  | [] => some []
  | [_] => none
  | c1 :: c2 :: rest => do
      let hi ← hexVal c1
      let lo ← hexVal c2
      let tail ← hexDecodeChars rest
      pure (UInt8.ofNat (hi * 16 + lo) :: tail)

/-- Models `hex::decode`. -/
def hexDecode (s : String) : Option (List UInt8) := hexDecodeChars s.data

/-- Two lowercase hex characters of one byte. -/
def hexEncodeByte (b : UInt8) : List Char :=
  [hexDigitChar (b.toNat / 16), hexDigitChar b.toNat]

/-- Models `hex::encode` (used by `send_notice`/`send_report`). -/
def hexEncode (bs : List UInt8) : String := String.mk (bs.map hexEncodeByte).flatten

/-- A UTF-8 continuation byte (`0x80..=0xBF`). -/
def isUtf8Cont (b : UInt8) : Bool := 0x80 ≤ b.toNat && b.toNat ≤ 0xBF

/-- Models `std::str::from_utf8` decoding/validation: rejects overlong forms,
surrogates and code points above `U+10FFFF`. -/
def utf8DecodeChars : List UInt8 → Option (List Char)
  | [] => some []
  | b :: rest =>
    let n := b.toNat
    if n ≤ 0x7F then
      (utf8DecodeChars rest).map (Char.ofNat n :: ·)
    else if n < 0xC2 then none
    else if n ≤ 0xDF then
      match rest with
      | b2 :: r =>
        if isUtf8Cont b2 then
          (utf8DecodeChars r).map (Char.ofNat ((n - 0xC0) * 64 + (b2.toNat - 0x80)) :: ·)
        else none
      | [] => none
    else if n ≤ 0xEF then
      match rest with
      | b2 :: b3 :: r =>
        if isUtf8Cont b2 && isUtf8Cont b3 &&
           (n != 0xE0 || 0xA0 ≤ b2.toNat) && (n != 0xED || b2.toNat ≤ 0x9F) then
          (utf8DecodeChars r).map
            (Char.ofNat ((n - 0xE0) * 4096 + (b2.toNat - 0x80) * 64 + (b3.toNat - 0x80)) :: ·)
        else none
      | _ => none
    else if n ≤ 0xF4 then
      match rest with
      | b2 :: b3 :: b4 :: r =>
        if isUtf8Cont b2 && isUtf8Cont b3 && isUtf8Cont b4 &&
           (n != 0xF0 || 0x90 ≤ b2.toNat) && (n != 0xF4 || b2.toNat ≤ 0x8F) then
          (utf8DecodeChars r).map
            (Char.ofNat ((n - 0xF0) * 262144 + (b2.toNat - 0x80) * 4096 +
                         (b3.toNat - 0x80) * 64 + (b4.toNat - 0x80)) :: ·)
        else none
      | _ => none
    else none

/-- Models `std::str::from_utf8`. -/
def utf8Decode (bs : List UInt8) : Option String := (utf8DecodeChars bs).map String.mk

/-- The UTF-8 bytes of one character (models Rust `char::encode_utf8`). -/
def charUtf8Bytes (c : Char) : List UInt8 :=
  let n := c.toNat
  if n < 0x80 then [UInt8.ofNat n]
  else if n < 0x800 then
    [UInt8.ofNat (0xC0 + n / 64), UInt8.ofNat (0x80 + n % 64)]
  else if n < 0x10000 then
    [UInt8.ofNat (0xE0 + n / 4096), UInt8.ofNat (0x80 + n / 64 % 64),
     UInt8.ofNat (0x80 + n % 64)]
  else
    [UInt8.ofNat (0xF0 + n / 262144), UInt8.ofNat (0x80 + n / 4096 % 64),
     UInt8.ofNat (0x80 + n / 64 % 64), UInt8.ofNat (0x80 + n % 64)]

/-- The UTF-8 bytes of a string (models Rust `str::as_bytes`). -/
def utf8Encode (s : String) : List UInt8 := (s.data.map charUtf8Bytes).flatten

/-- Value of a standard-alphabet base64 character, written on code points:
uppercase 65–90 map to 0–25, lowercase 97–122 to 26–51, digits 48–57 to
52–61, then `+` (43) and `/` (47). -/
def base64Val (c : Char) : Option Nat :=
  let n := c.toNat
  if 65 ≤ n && n ≤ 90 then some (n - 65)
  else if 97 ≤ n && n ≤ 122 then some (n - 71)
  else if 48 ≤ n && n ≤ 57 then some (n + 4)
  else if n = 43 then some 62
  else if n = 47 then some 63
  else none

/-- Models `base64::engine::general_purpose::STANDARD.decode`: standard
alphabet, length a multiple of four, `=` padding in final position only.
(The engine's check that unused trailing bits are zero is not modelled; no
claim depends on it.) -/
def base64DecodeChars : List Char → Option (List UInt8)
  | [] => some []
  | [c1, c2, '=', '='] => do
      let v1 ← base64Val c1
      let v2 ← base64Val c2
      pure [UInt8.ofNat (v1 * 4 + v2 / 16)]
  | [c1, c2, c3, '='] => do
      let v1 ← base64Val c1
      let v2 ← base64Val c2
      let v3 ← base64Val c3
      pure [UInt8.ofNat (v1 * 4 + v2 / 16), UInt8.ofNat (v2 % 16 * 16 + v3 / 4)]
  | c1 :: c2 :: c3 :: c4 :: rest => do
      let v1 ← base64Val c1
      let v2 ← base64Val c2
      let v3 ← base64Val c3
      let v4 ← base64Val c4
      let tail ← base64DecodeChars rest
      pure (UInt8.ofNat (v1 * 4 + v2 / 16) :: UInt8.ofNat (v2 % 16 * 16 + v3 / 4) ::
            UInt8.ofNat (v3 % 4 * 64 + v4) :: tail)
  | _ => none

/-- Models `STANDARD.decode` on a string. -/
def base64Decode (s : String) : Option (List UInt8) := base64DecodeChars s.data

/-! ## A model of `serde_json::from_str`: JSON text parsing -/

/-- JSON whitespace. -/
def isJsonWs (c : Char) : Bool := c = ' ' || c = '\t' || c = '\n' || c = '\r'

/-- Drop leading JSON whitespace. -/
def skipWs : List Char → List Char
  | [] => []
  | c :: cs => if isJsonWs c then skipWs cs else c :: cs

/-- A JSON string escape (`\uXXXX` escapes are not modelled; the DApp's
payloads do not use them). -/
def escapeChar (c : Char) : Option Char :=
  if c = '\x22' then some '\x22'
  else if c = '\x5c' then some '\x5c'
  else if c = '/' then some '/'
  else if c = 'b' then some (Char.ofNat 8)
  else if c = 'f' then some (Char.ofNat 12)
  else if c = 'n' then some '\n'
  else if c = 'r' then some '\r'
  else if c = 't' then some '\t'
  else none

/-- Parse the remainder of a JSON string after the opening quote; rejects
unescaped control characters, as serde_json does. -/
def parseStringRest : List Char → Option (List Char × List Char)
  | [] => none
  | c :: rest =>
    if c = '\x22' then some ([], rest)
    else if c = '\x5c' then
      match rest with
      | [] => none
      | e :: rest' => do
        let ec ← escapeChar e
        let (s, r) ← parseStringRest rest'
        pure (ec :: s, r)
    else if c.toNat < 0x20 then none
    else (parseStringRest rest).map (fun p => (c :: p.1, p.2))

/-- Digits to a number. -/
def digitsVal (ds : List Char) : Nat :=
  ds.foldl (fun acc c => acc * 10 + (c.toNat - '0'.toNat)) 0

/-- Parse a JSON number. Integers only (floats rejected — a model restriction;
serde rejects leading zeros, which is kept). -/
def parseNumber (cs : List Char) : Option (Json × List Char) :=
  let p := match cs with
    | '-' :: r => (true, r)
    | _ => (false, cs)
  let ds := p.2.takeWhile Char.isDigit
  let rest := p.2.dropWhile Char.isDigit
  if ds.isEmpty then none
  else if ds.length > 1 && ds.headD '0' = '0' then none
  else
    match rest with
    | '.' :: _ => none
    | 'e' :: _ => none
    | 'E' :: _ => none
    | _ =>
      let v : Int := Int.ofNat (digitsVal ds)
      some (.num (if p.1 then -v else v), rest)

/-- Consume an expected literal keyword tail. -/
def matchLit : List Char → List Char → Option (List Char)
  | [], r => some r
  | k :: ks, c :: r => if c = k then matchLit ks r else none
  | _ :: _, [] => none

mutual

/-- Parse one JSON value (fuel-bounded recursion). -/
def parseValue : Nat → List Char → Option (Json × List Char)
  | 0, _ => none
  | fuel + 1, cs =>
    match skipWs cs with
    | 'n' :: r => (matchLit ['u', 'l', 'l'] r).map (fun r' => (Json.null, r'))
    | 't' :: r => (matchLit ['r', 'u', 'e'] r).map (fun r' => (Json.bool true, r'))
    | 'f' :: r => (matchLit ['a', 'l', 's', 'e'] r).map (fun r' => (Json.bool false, r'))
    | '\x22' :: r => (parseStringRest r).map (fun p => (.str (String.mk p.1), p.2))
    | '[' :: r =>
      (match skipWs r with
       | ']' :: r' => some (.arr [], r')
       | r' => (parseElems fuel r').map (fun p => (.arr p.1, p.2)))
    | '\x7b' :: r =>
      (match skipWs r with
       | '\x7d' :: r' => some (.obj [], r')
       | r' => (parseMembers fuel r').map (fun p => (.obj p.1, p.2)))
    | r => parseNumber r

/-- Parse the elements of a non-empty JSON array. -/
def parseElems : Nat → List Char → Option (List Json × List Char)
  | 0, _ => none
  | fuel + 1, cs =>
    match parseValue fuel cs with
    | none => none
    | some (v, r) =>
      match skipWs r with
      | ',' :: r' => (parseElems fuel r').map (fun p => (v :: p.1, p.2))
      | ']' :: r' => some ([v], r')
      | _ => none

/-- Parse the members of a non-empty JSON object. -/
def parseMembers : Nat → List Char → Option (List (String × Json) × List Char)
  | 0, _ => none
  | fuel + 1, cs =>
    match skipWs cs with
    | '\x22' :: r =>
      (match parseStringRest r with
       | none => none
       | some (key, r1) =>
         match skipWs r1 with
         | ':' :: r2 =>
           (match parseValue fuel r2 with
            | none => none
            | some (v, r3) =>
              match skipWs r3 with
              | ',' :: r4 => (parseMembers fuel r4).map (fun p => ((String.mk key, v) :: p.1, p.2))
              | '\x7d' :: r4 => some ([(String.mk key, v)], r4)
              | _ => none)
         | _ => none)
    | _ => none

end

/-- Models `serde_json::from_str`'s tokenizer/parser: parse one value, allow
only trailing whitespace. The fuel is generous for any input of this length. -/
def parseJsonText (s : String) : Option Json :=
  match parseValue (2 * s.data.length + 2) s.data with
  | some (j, rest) => if (skipWs rest).isEmpty then some j else none
  | none => none

/-! ## Request/response types (src/application/types.rs) -/

/-- Models `NotarizeRequest`. -/
structure NotarizeRequest where
  content : String
  file_name : String
  mime_type : String
deriving DecidableEq

/-- Models `VerifyRequest`. -/
structure VerifyRequest where
  content_hash : String
deriving DecidableEq

/-- Models `InputAction` (serde internally tagged by `"action"`,
variants renamed to lowercase). -/
inductive InputAction where
  | notarize (data : NotarizeRequest)
  | verify (data : VerifyRequest)
deriving DecidableEq

/-- Models the derived serde deserializer of `NotarizeRequest` on a parsed
JSON value: the three string fields are required, unknown fields ignored. -/
def deserNotarizeRequest (j : Json) : Option NotarizeRequest := do
  let content ← (j.get "content").as_str
  let file_name ← (j.get "file_name").as_str
  let mime_type ← (j.get "mime_type").as_str
  pure { content := content, file_name := file_name, mime_type := mime_type }

/-- Models the derived serde deserializer of `VerifyRequest`. -/
def deserVerifyRequest (j : Json) : Option VerifyRequest :=
  ((j.get "content_hash").as_str).map (fun h => { content_hash := h })

/-- Models the derived serde deserializer of `InputAction`: dispatch on the
string `"action"` tag, then deserialize the `"data"` field. -/
def deserInputAction (j : Json) : Option InputAction :=
  match (j.get "action").as_str with
  | some t =>
    if t = "notarize" then (deserNotarizeRequest (j.get "data")).map .notarize
    else if t = "verify" then (deserVerifyRequest (j.get "data")).map .verify
    else none
  | none => none

/-- Models `serde_json::from_str::<InputAction>`. -/
def parseInputAction (s : String) : Option InputAction :=
  (parseJsonText s).bind deserInputAction

/-- Models `serde_json::from_str::<VerifyRequest>`. -/
def parseVerifyRequest (s : String) : Option VerifyRequest :=
  (parseJsonText s).bind deserVerifyRequest

/-- Models `NoticeResponse`. -/
structure NoticeResponse where
  response_type : String
  receipt : NotarizationReceipt
deriving DecidableEq

/-- Models `NoticeResponse::notarization`. -/
def NoticeResponse.notarization (receipt : NotarizationReceipt) : NoticeResponse :=
  { response_type := "notarization_receipt", receipt := receipt }

/-- Models `ReportResponse`. -/
structure ReportResponse where
  exists_ : Bool
  document : Option Document
  receipt : Option NotarizationReceipt
deriving DecidableEq

/-- Models `ReportResponse::from_verification`. -/
def ReportResponse.from_verification (result : VerificationResult) : ReportResponse :=
  { exists_ := result.exists_, document := result.document, receipt := result.receipt }

/-! ## Handlers (src/handlers.rs, duplicated verbatim in src/main.rs) -/

/-- The outputs a handler emits through `send_notice`/`send_report`
(src/infrastructure/cartesi.rs), in emission order. `errorReport msg` models
the ad-hoc error JSON object whose message renders the recovered error
(for serde parse failures a fixed descriptor stands in for serde's message
text, which is not modelled). Transport is modelled as succeeding; a transport
failure is the fatal condition the spec treats separately. -/
inductive Output where
  | notice (r : NoticeResponse)
  | report (r : ReportResponse)
  | errorReport (msg : String)
deriving DecidableEq

/-- The errors a handler propagates with `?` instead of recovering:
each corresponds to one early-return site in `handle_advance`/`handle_inspect`
or the `request_type` check in `main`. -/
inductive HandlerError where
  | missingPayload
  | hexDecodeError
  | utf8Error
  | badRequestType
deriving DecidableEq

/-- The default sender substituted when `msg_sender` is absent. -/
def zeroAddress : String := "0x0000000000000000000000000000000000000000"

/-- The `match input` dispatch inside `handle_advance`: base64-decode and
notarize, or verify; every outcome becomes an output plus a verdict. -/
def dispatchAction (st : List Document) (input : InputAction)
    (submitter : String) (block_number : Nat) (freshId : String) (now : Int) :
    Except HandlerError String × List Output × List Document :=
  match input with
  | .notarize data =>
    match base64Decode data.content with
    | none => (.ok "reject", [.errorReport "Invalid base64 content"], st)
    | some content =>
      match NotarizeUseCase.execute SqliteRepository st content data.file_name
            data.mime_type submitter block_number freshId now with
      | (.ok receipt, st') =>
        (.ok "accept", [.notice (NoticeResponse.notarization receipt)], st')
      | (.error e, st') =>
        (.ok "reject", [.errorReport e.toString], st')
  | .verify data =>
    match VerifyUseCase.execute SqliteRepository st data.content_hash with
    | (.ok result, st') =>
      (.ok "accept", [.report (ReportResponse.from_verification result)], st')
    | (.error e, st') =>
      (.ok "reject", [.errorReport e.toString], st')

/-- Models `handle_advance`. The store state stands for the repository
obtained from `get_repository()`; `freshId` and `now` are the ambient
UUID/clock inputs. The result is the handler's `Result` (an `Err` here is
propagated by `?` in the caller), the emitted outputs, and the store state
after the request. -/
def handle_advance (st : List Document) (request : Json)
    (freshId : String) (now : Int) :
    Except HandlerError String × List Output × List Document :=
  match ((request.get "data").get "payload").as_str with
  | none => (.error .missingPayload, [], st)
  | some payload_hex =>
    match hexDecode payload_hex with
    | none => (.error .hexDecodeError, [], st)
    | some payload_bytes =>
      match utf8Decode payload_bytes with
      | none => (.error .utf8Error, [], st)
      | some payload_str =>
        match parseInputAction payload_str with
        | none => (.ok "reject", [.errorReport "Invalid input format"], st)
        | some input =>
          let submitter :=
            ((((request.get "data").get "metadata").get "msg_sender").as_str).getD zeroAddress
          let block_number :=
            ((((request.get "data").get "metadata").get "block_number").as_u64).getD 0
          dispatchAction st input submitter block_number freshId now

/-- Models `handle_inspect`: same envelope decoding, bare `VerifyRequest`
payload, and an `accept` verdict on every recovered outcome. -/
def handle_inspect (st : List Document) (request : Json) :
    Except HandlerError String × List Output × List Document :=
  match ((request.get "data").get "payload").as_str with
  | none => (.error .missingPayload, [], st)
  | some payload_hex =>
    match hexDecode payload_hex with
    | none => (.error .hexDecodeError, [], st)
    | some payload_bytes =>
      match utf8Decode payload_bytes with
      | none => (.error .utf8Error, [], st)
      | some payload_str =>
        match parseVerifyRequest payload_str with
        | none => (.ok "accept", [.errorReport "Invalid request format"], st)
        | some verify_req =>
          match VerifyUseCase.execute SqliteRepository st verify_req.content_hash with
          | (.ok result, st') =>
            (.ok "accept", [.report (ReportResponse.from_verification result)], st')
          | (.error e, st') =>
            (.ok "accept", [.errorReport e.toString], st')

/-- Models the per-request routing step of `main`'s driver loop
(src/main.rs, the body after `json::parse`): extract `request_type`, route to
the matching handler, treat an unknown kind as `reject`. An `Err` in the first
component is propagated by `?` in `main`, which terminates the loop and the
process. -/
def processRequest (st : List Document) (req : Json)
    (freshId : String) (now : Int) :
    Except HandlerError String × List Output × List Document :=
  match (req.get "request_type").as_str with
  | none => (.error .badRequestType, [], st)
  | some request_type =>
    if request_type = "advance_state" then handle_advance st req freshId now
    else if request_type = "inspect_state" then handle_inspect st req
    else (.ok "reject", [], st)

/-! ## Shared lemmas -/

theorem charUtf8Len_of_hexdigit (c : Char) (h : isAsciiHexdigit c = true) :
    charUtf8Len c = 1 := by
  simp only [isAsciiHexdigit, Bool.or_eq_true, Bool.and_eq_true,
    decide_eq_true_eq] at h
  unfold charUtf8Len
  have hlt : c.toNat < 0x80 := by omega
  simp [hlt]

theorem sumLen_of_hexdigits (l : List Char)
    (h : ∀ c ∈ l, isAsciiHexdigit c = true) :
    (l.map charUtf8Len).sum = l.length := by
  induction l with
  | nil => simp
  | cons c cs ih =>
    simp only [List.map_cons, List.sum_cons, List.length_cons]
    rw [charUtf8Len_of_hexdigit c (h c (List.mem_cons_self c cs)),
        ih (fun x hx => h x (List.mem_cons_of_mem c hx))]
    omega

/-- The code's `is_valid_hash` (byte length 64, all chars ASCII hex) agrees
with the spec's reading (64 characters, each a hex digit): on all-ASCII-hex
strings the byte length is the character count. -/
theorem is_valid_hash_iff (s : String) :
    VerifyUseCase.is_valid_hash s = true ↔
      (s.length = 64 ∧ ∀ c ∈ s.data, isAsciiHexdigit c = true) := by
  unfold VerifyUseCase.is_valid_hash rustStrLen
  simp only [Bool.and_eq_true, beq_iff_eq, List.all_eq_true]
  constructor
  · rintro ⟨hlen, hall⟩
    refine ⟨?_, hall⟩
    have hs := sumLen_of_hexdigits s.data hall
    have hL : s.length = s.data.length := rfl
    omega
  · rintro ⟨hlen, hall⟩
    refine ⟨?_, hall⟩
    rw [sumLen_of_hexdigits s.data hall]
    have hL : s.length = s.data.length := rfl
    omega

/-- A well-formed 64-hex-character string, used as a concrete query. -/
def hash64a : String :=
  "aaaaaaaaaaaaaaaaaaaaaaaaaaaaaaaaaaaaaaaaaaaaaaaaaaaaaaaaaaaaaaaa"

/-- A repository (over a trivial state) whose lookup always reports
`NotFound`; stands for an empty store in witnesses. -/
def notFoundRepo : DocumentRepository Unit :=
  { find_by_hash := fun st _ => (.error .dbNotFound, st)
    save_document := fun st _ => (.ok (), st) }

/-! ## C5 -/

/-- C5: `VerifyUseCase::execute` fails with `InvalidHashFormat` exactly when
the input is not 64 hexadecimal characters (case-insensitive): strings of the
wrong length or with a non-hex character are rejected, and every
64-hex-character string passes validation. -/
theorem c5_invalid_hash_format_iff {σ : Type} (repo : DocumentRepository σ)
    (st : σ) (s : String) :
    (VerifyUseCase.execute repo st s).1 = .error .InvalidHashFormat ↔
      ¬ (s.length = 64 ∧ ∀ c ∈ s.data, isAsciiHexdigit c = true) := by
  rw [← is_valid_hash_iff]
  constructor
  · intro herr hv
    unfold VerifyUseCase.execute at herr
    rw [hv] at herr
    rcases hfind : repo.find_by_hash st s with ⟨r, st'⟩
    rw [hfind] at herr
    cases r <;> simp at herr
  · intro hninv
    have hv : VerifyUseCase.is_valid_hash s = false := by
      cases hval : VerifyUseCase.is_valid_hash s
      · rfl
      · exact absurd hval hninv
    unfold VerifyUseCase.execute
    rw [hv]
    simp

/-! ## C4 -/

/-- C4: for every well-formed 64-hex-character hash, `VerifyUseCase::execute`
returns `Ok`; when the lookup fails with any store error the result is the
`not_found` verification result, so a lookup failure is never surfaced to the
caller as an error. -/
theorem c4_verify_lookup_never_errors {σ : Type} (repo : DocumentRepository σ)
    (st : σ) (s : String)
    (hlen : s.length = 64) (hhex : ∀ c ∈ s.data, isAsciiHexdigit c = true) :
    (∃ r, (VerifyUseCase.execute repo st s).1 = .ok r) ∧
    (∀ e st', repo.find_by_hash st s = (.error e, st') →
      (VerifyUseCase.execute repo st s).1 = .ok VerificationResult.not_found) := by
  have hv : VerifyUseCase.is_valid_hash s = true := (is_valid_hash_iff s).mpr ⟨hlen, hhex⟩
  constructor
  · rcases hfind : repo.find_by_hash st s with ⟨r, st'⟩
    cases r with
    | ok d =>
      exact ⟨VerificationResult.found d, by simp [VerifyUseCase.execute, hv, hfind]⟩
    | error e =>
      exact ⟨VerificationResult.not_found, by simp [VerifyUseCase.execute, hv, hfind]⟩
  · intro e st' hfind
    simp [VerifyUseCase.execute, hv, hfind]

/-- Witness for C4 at the all-`a` hash against a store whose lookup reports
`NotFound`. -/
theorem c4_verify_lookup_never_errors_witness :
    (∃ r, (VerifyUseCase.execute notFoundRepo () hash64a).1 = .ok r) ∧
    (∀ e st', notFoundRepo.find_by_hash () hash64a = (.error e, st') →
      (VerifyUseCase.execute notFoundRepo () hash64a).1 =
        .ok VerificationResult.not_found) :=
  c4_verify_lookup_never_errors notFoundRepo () hash64a (by decide) (by decide)

/-! ## C9 -/

/-- C9: when `VerifyUseCase::execute` finds a document, the result is the
`found` result: `exists` is true, the document is carried, and the receipt's
`document_id`, `content_hash` and `notarized_at` are copied from the
document's `id`, `content_hash` and `created_at`, with `block_number` zero. -/
theorem c9_verify_found_receipt_fields {σ : Type} (repo : DocumentRepository σ)
    (st st' : σ) (s : String) (doc : Document)
    (hv : VerifyUseCase.is_valid_hash s = true)
    (hfind : repo.find_by_hash st s = (.ok doc, st')) :
    (VerifyUseCase.execute repo st s).1 = .ok (VerificationResult.found doc) ∧
    (VerificationResult.found doc).exists_ = true ∧
    (VerificationResult.found doc).document = some doc ∧
    ∃ rec, (VerificationResult.found doc).receipt = some rec ∧
      rec.document_id = doc.id ∧ rec.content_hash = doc.content_hash ∧
      rec.notarized_at = doc.created_at ∧ rec.block_number = 0 := by
  refine ⟨?_, rfl, rfl,
    NotarizationReceipt.new doc.id doc.content_hash doc.created_at 0,
    rfl, rfl, rfl, rfl, rfl⟩
  simp [VerifyUseCase.execute, hv, hfind]

/-- A document whose hash is the all-`a` string, and a repository that finds
it, for the C9 witness. -/
def docA : Document :=
  { id := "doc-1", content_hash := hash64a, file_name := "f.txt"
    mime_type := "text/plain", submitted_by := "0xabc", created_at := 42 }

def foundRepo : DocumentRepository Unit :=
  { find_by_hash := fun st _ => (.ok docA, st)
    save_document := fun st _ => (.ok (), st) }

/-- Witness for C9: querying the all-`a` hash against a store that finds
`docA`. -/
theorem c9_verify_found_receipt_fields_witness :
    (VerifyUseCase.execute foundRepo () hash64a).1 =
      .ok (VerificationResult.found docA) ∧
    (VerificationResult.found docA).exists_ = true ∧
    (VerificationResult.found docA).document = some docA ∧
    ∃ rec, (VerificationResult.found docA).receipt = some rec ∧
      rec.document_id = docA.id ∧ rec.content_hash = docA.content_hash ∧
      rec.notarized_at = docA.created_at ∧ rec.block_number = 0 :=
  c9_verify_found_receipt_fields foundRepo () () hash64a docA (by decide) rfl

/-! ## C6 -/

/-- A lowercase hex character (digit or `a`–`f`, by code point). -/
def isLowerHexChar (c : Char) : Bool :=
  (48 ≤ c.toNat && c.toNat ≤ 57) || (97 ≤ c.toNat && c.toNat ≤ 102)

theorem isLowerHexChar_hexDigitChar (n : Nat) :
    isLowerHexChar (hexDigitChar n) = true := by
  have hb : ∀ m, m < 16 → isLowerHexChar (hexDigitChars.getD m '0') = true := by decide
  exact hb (n % 16) (Nat.mod_lt n (by decide))

theorem mem_wordHexChars_isLowerHex {c : Char} {w : Nat}
    (h : c ∈ wordHexChars w) : isLowerHexChar c = true := by
  simp only [wordHexChars, List.mem_cons, List.not_mem_nil, or_false] at h
  rcases h with rfl | rfl | rfl | rfl | rfl | rfl | rfl | rfl <;>
    exact isLowerHexChar_hexDigitChar _

/-- C6: the `content_hash` of a Document built from content `C` is a
64-character lowercase hexadecimal string, and it is a deterministic function
of the content bytes only: Documents built from the same bytes with different
file name, MIME type, submitter, id or timestamp carry the same hash. -/
theorem c6_hash_deterministic_lowercase_hex64 (content : List UInt8)
    (fn mt sb id fn' mt' sb' id' : String) (ts ts' : Int) :
    (Document.new content fn mt sb id ts).content_hash.length = 64 ∧
    (∀ c ∈ (Document.new content fn mt sb id ts).content_hash.data,
      isLowerHexChar c = true) ∧
    (Document.new content fn mt sb id ts).content_hash =
      (Document.new content fn' mt' sb' id' ts').content_hash := by
  refine ⟨?_, ?_, rfl⟩
  · show (String.mk (digestHexChars (sha256Words _))).length = 64
    simp [String.length, digestHexChars, wordHexChars]
  · intro c hc
    have hmem : c ∈ digestHexChars (sha256Words (content.map UInt8.toNat)) := hc
    simp only [digestHexChars, List.mem_append] at hmem
    rcases hmem with ((((((h | h) | h) | h) | h) | h) | h) | h <;>
      exact mem_wordHexChars_isLowerHex h

/-! ## C8 -/

/-- C8: every receipt built by `NotarizationReceipt::new` has
`proof = "sha256:" ++ content_hash ++ "@" ++ notarized_at` with the timestamp
rendered in decimal; in particular this holds for receipts reconstructed from
a stored Document by `VerificationResult::found`. -/
theorem c8_receipt_proof_invariant (did ch : String) (ts : Int) (bn : Nat)
    (d : Document) :
    (NotarizationReceipt.new did ch ts bn).proof =
      "sha256:" ++ ch ++ "@" ++ toString ts ∧
    (VerificationResult.found d).receipt =
      some (NotarizationReceipt.new d.id d.content_hash d.created_at 0) ∧
    (NotarizationReceipt.new d.id d.content_hash d.created_at 0).proof =
      "sha256:" ++ d.content_hash ++ "@" ++ toString d.created_at :=
  ⟨rfl, rfl, rfl⟩

/-! ## C7 -/

/-- C7: `NotarizeUseCase::execute` is atomic with respect to the store: on
every error outcome the store is unchanged, and on every success outcome
exactly the one constructed Document has been appended and the matching
receipt is returned. -/
theorem c7_notarize_atomic (st : List Document) (content : List UInt8)
    (fn mt sb : String) (bn : Nat) (id : String) (ts : Int) :
    (match NotarizeUseCase.execute SqliteRepository st content fn mt sb bn id ts with
     | (.error _, st') => st' = st
     | (.ok rec, st') =>
         st' = st ++ [Document.new content fn mt sb id ts] ∧
         rec = NotarizationReceipt.new (Document.new content fn mt sb id ts).id
               (Document.new content fn mt sb id ts).content_hash
               (Document.new content fn mt sb id ts).created_at bn) := by
  cases hc : content.isEmpty with
  | true => simp [NotarizeUseCase.execute, hc]
  | false =>
    cases hf : (rustTrim fn).isEmpty with
    | true => simp [NotarizeUseCase.execute, hc, hf]
    | false =>
      cases hfind : st.find?
          (fun d => d.content_hash == (Document.new content fn mt sb id ts).content_hash) with
      | some d =>
        simp [NotarizeUseCase.execute, SqliteRepository, hc, hf, hfind]
      | none =>
        cases hany : st.any
            (fun d => d.content_hash == (Document.new content fn mt sb id ts).content_hash ||
                      d.id == (Document.new content fn mt sb id ts).id) with
        | true =>
          simp only [NotarizeUseCase.execute, SqliteRepository, hc, hf, hfind, hany]
          simp
        | false =>
          simp only [NotarizeUseCase.execute, SqliteRepository, hc, hf, hfind, hany]
          simp

/-! ## C3 -/

/-- A repository whose lookup misses but whose save reports `DuplicateHash`:
the behavior an arbitrary `DocumentRepository` implementation exhibits when a
concurrent writer wins the race between the pre-check and the insert. -/
def saveDupRepo : DocumentRepository Unit :=
  { find_by_hash := fun st _ => (.error .dbNotFound, st)
    save_document := fun st _ => (.error .dbDuplicateHash, st) }

/-- C3 counterexample: when the save step reports `DuplicateHash`,
`NotarizeUseCase::execute` returns `DatabaseError` carrying the store error's
message, not `DuplicateDocument`: the claimed translation does not exist in
the code (the save error is mapped to `DatabaseError(e.to_string())`
unconditionally). -/
theorem c3_duplicate_on_save_counterexample :
    (NotarizeUseCase.execute saveDupRepo () [104] "a.txt" "text/plain"
      "0xabc" 1 "id-1" 0).1 =
      .error (.DatabaseError "Duplicate document hash") ∧
    NotarizeError.DatabaseError "Duplicate document hash" ≠
      NotarizeError.DuplicateDocument :=
  ⟨rfl, by decide⟩

/-- C3 amended: any failure of the save step — `DuplicateHash` included — is
translated to `DatabaseError` carrying the underlying error's message;
`DuplicateDocument` arises only from the pre-save lookup finding an existing
document. -/
theorem c3_save_error_maps_to_database_error {σ : Type}
    (repo : DocumentRepository σ) (st st' st'' : σ) (content : List UInt8)
    (fn mt sb : String) (bn : Nat) (id : String) (ts : Int) (e0 e : DynError)
    (hc : content.isEmpty = false) (hf : (rustTrim fn).isEmpty = false)
    (hfind : repo.find_by_hash st (Document.new content fn mt sb id ts).content_hash =
      (.error e0, st'))
    (hsave : repo.save_document st' (Document.new content fn mt sb id ts) =
      (.error e, st'')) :
    NotarizeUseCase.execute repo st content fn mt sb bn id ts =
      (.error (.DatabaseError e.toString), st'') := by
  simp [NotarizeUseCase.execute, hc, hf, hfind, hsave]

/-- Witness for the amended C3 at a one-byte document against `saveDupRepo`. -/
theorem c3_save_error_maps_to_database_error_witness :
    NotarizeUseCase.execute saveDupRepo () [104] "a.txt" "text/plain"
      "0xabc" 1 "id-1" 0 =
      (.error (.DatabaseError DynError.dbDuplicateHash.toString), ()) :=
  c3_save_error_maps_to_database_error saveDupRepo () () () [104] "a.txt"
    "text/plain" "0xabc" 1 "id-1" 0 .dbNotFound .dbDuplicateHash
    (by decide) (by decide) rfl rfl

/-! ## Dispatch helper -/

/-- The action dispatch never propagates an error: every outcome of the two
use cases becomes an `Ok` verdict. -/
theorem dispatchAction_verdict_isOk (st : List Document) (input : InputAction)
    (sub : String) (bn : Nat) (fid : String) (now : Int) :
    ∃ v, (dispatchAction st input sub bn fid now).1 = .ok v := by
  cases input with
  | notarize data =>
    cases hb : base64Decode data.content with
    | none => exact ⟨"reject", by simp [dispatchAction, hb]⟩
    | some content =>
      rcases hex : NotarizeUseCase.execute SqliteRepository st content
          data.file_name data.mime_type sub bn fid now with ⟨r, st'⟩
      cases r with
      | ok receipt => exact ⟨"accept", by simp [dispatchAction, hb, hex]⟩
      | error e => exact ⟨"reject", by simp [dispatchAction, hb, hex]⟩
  | verify data =>
    rcases hex : VerifyUseCase.execute SqliteRepository st data.content_hash
        with ⟨r, st'⟩
    cases r with
    | ok result => exact ⟨"accept", by simp [dispatchAction, hex]⟩
    | error e => exact ⟨"reject", by simp [dispatchAction, hex]⟩

/-! ## C1 -/

/-- An advance-state envelope whose payload is not valid hex. -/
def c1BadHexRequest : Json :=
  .obj [("request_type", .str "advance_state"),
        ("data", .obj [("payload", .str "zz")])]

/-- C1 counterexample: a hex-decode failure is not recovered locally — the
per-request routing step returns an error with no report and no verdict, and
`main` applies `?` to that error, which terminates the driver loop and the
process. -/
theorem c1_hex_error_escapes_counterexample :
    processRequest [] c1BadHexRequest "id-0" 0 = (.error .hexDecodeError, [], []) :=
  rfl

/-- C1 amended: errors arising after the payload has been decoded (action or
verify-request parse failures and all use-case failures) are recovered
locally into an error report plus a verdict; but a missing payload field, a
hex-decode failure, or a UTF-8 failure is propagated out of the handler as an
error, which `main`'s `?` turns into loop termination. -/
theorem c1_post_decode_errors_recovered (st : List Document) (req : Json)
    (fid : String) (now : Int) (ph : String) (bs : List UInt8) (s : String)
    (hp : ((req.get "data").get "payload").as_str = some ph)
    (hx : hexDecode ph = some bs)
    (hu : utf8Decode bs = some s) :
    (∃ v, (handle_advance st req fid now).1 = .ok v) ∧
    (∃ v, (handle_inspect st req).1 = .ok v) ∧
    (parseInputAction s = none →
      handle_advance st req fid now =
        (.ok "reject", [.errorReport "Invalid input format"], st)) ∧
    (parseVerifyRequest s = none →
      handle_inspect st req =
        (.ok "accept", [.errorReport "Invalid request format"], st)) := by
  refine ⟨?_, ?_, ?_, ?_⟩
  · cases hparse : parseInputAction s with
    | none => exact ⟨"reject", by simp [handle_advance, hp, hx, hu, hparse]⟩
    | some input =>
      obtain ⟨v, hv⟩ := dispatchAction_verdict_isOk st input
        (((((req.get "data").get "metadata").get "msg_sender")).as_str.getD zeroAddress)
        (((((req.get "data").get "metadata").get "block_number")).as_u64.getD 0) fid now
      refine ⟨v, ?_⟩
      simp only [handle_advance, hp, hx, hu, hparse]
      exact hv
  · cases hparse : parseVerifyRequest s with
    | none => exact ⟨"accept", by simp [handle_inspect, hp, hx, hu, hparse]⟩
    | some vq =>
      rcases hex : VerifyUseCase.execute SqliteRepository st vq.content_hash
          with ⟨r, st'⟩
      cases r with
      | ok result => exact ⟨"accept", by simp [handle_inspect, hp, hx, hu, hparse, hex]⟩
      | error e => exact ⟨"accept", by simp [handle_inspect, hp, hx, hu, hparse, hex]⟩
  · intro hparse
    simp [handle_advance, hp, hx, hu, hparse]
  · intro hparse
    simp [handle_inspect, hp, hx, hu, hparse]

/-- The hex encoding of the one-character payload `"x"`. -/
def plainPayloadHex : String := hexEncode (utf8Encode "x")

/-- An envelope whose payload hex- and UTF-8-decodes (to `"x"`). -/
def c1DecodableRequest : Json :=
  .obj [("data", .obj [("payload", .str plainPayloadHex)])]

/-- Witness for the amended C1 at the decodable `"x"` payload. -/
theorem c1_post_decode_errors_recovered_witness :
    (∃ v, (handle_advance [] c1DecodableRequest "id-0" 0).1 = .ok v) ∧
    (∃ v, (handle_inspect [] c1DecodableRequest).1 = .ok v) ∧
    (parseInputAction "x" = none →
      handle_advance [] c1DecodableRequest "id-0" 0 =
        (.ok "reject", [.errorReport "Invalid input format"], [])) ∧
    (parseVerifyRequest "x" = none →
      handle_inspect [] c1DecodableRequest =
        (.ok "accept", [.errorReport "Invalid request format"], [])) :=
  c1_post_decode_errors_recovered [] c1DecodableRequest "id-0" 0 plainPayloadHex
    (utf8Encode "x") "x" rfl rfl (by decide)

/-! ## C2 -/

/-- The decoded text of a verify advance action whose hash is `"abc123"`:
well-formed JSON, a valid `InputAction`, but an invalid hash format. -/
def c2VerifyPayload : String :=
  "\x7b\"action\":\"verify\",\"data\":\x7b\"content_hash\":\"abc123\"\x7d\x7d"

/-- An advance-state envelope carrying `c2VerifyPayload` hex-encoded. -/
def c2Request : Json :=
  .obj [("request_type", .str "advance_state"),
        ("data", .obj [("payload", .str (hexEncode (utf8Encode c2VerifyPayload)))])]

/-- C2 counterexample: this advance request parses into a valid verify
action, is not a Notarize failure, yet the dispatcher reports `reject`
(the hash fails format validation), refuting "only Notarize failures cause a
reject verdict". -/
theorem c2_verify_invalid_hash_rejects_counterexample :
    parseInputAction c2VerifyPayload =
      some (.verify { content_hash := "abc123" }) ∧
    (handle_advance [] c2Request "id-0" 0).1 = .ok "reject" ∧
    (handle_advance [] c2Request "id-0" 0).2.1 =
      [.errorReport "Invalid hash format: must be 64 hexadecimal characters"] :=
  ⟨rfl, rfl, rfl⟩

/-- C2 amended: for a verify advance action the dispatcher reports `accept`
whenever the hash passes format validation — regardless of whether the
document was found — and reports `reject` when it does not; so verify
requests with an invalid hash format cause reject alongside Notarize
failures. -/
theorem c2_advance_verify_verdict (st : List Document) (hsh sub fid : String)
    (bn : Nat) (now : Int) :
    (VerifyUseCase.is_valid_hash hsh = true →
      (dispatchAction st (.verify { content_hash := hsh }) sub bn fid now).1 =
        .ok "accept") ∧
    (VerifyUseCase.is_valid_hash hsh = false →
      (dispatchAction st (.verify { content_hash := hsh }) sub bn fid now).1 =
        .ok "reject") := by
  constructor
  · intro hv
    cases hfind : st.find? (fun d => d.content_hash == hsh) with
    | some d => simp [dispatchAction, VerifyUseCase.execute, SqliteRepository, hv, hfind]
    | none => simp [dispatchAction, VerifyUseCase.execute, SqliteRepository, hv, hfind]
  · intro hv
    simp [dispatchAction, VerifyUseCase.execute, hv]

/-- Witness for the amended C2: accept at the valid all-`a` hash (store
empty, document not found), reject at `"abc123"`. -/
theorem c2_advance_verify_verdict_witness :
    (dispatchAction [] (.verify { content_hash := hash64a })
      "0xabc" 0 "id-0" 0).1 = .ok "accept" ∧
    (dispatchAction [] (.verify { content_hash := "abc123" })
      "0xabc" 0 "id-0" 0).1 = .ok "reject" :=
  ⟨(c2_advance_verify_verdict [] hash64a "0xabc" "id-0" 0 0).1 (by decide),
   (c2_advance_verify_verdict [] "abc123" "0xabc" "id-0" 0 0).2 (by decide)⟩

/-! ## C10 -/

/-- C10: when the advance metadata's `msg_sender` is absent or not a string
and `block_number` is absent or not a `u64`, `handle_advance` does not fail:
it dispatches the parsed action with the zero address and block number 0. -/
theorem c10_metadata_defaults (st : List Document) (req : Json) (fid : String)
    (now : Int) (ph : String) (bs : List UInt8) (s : String) (act : InputAction)
    (hp : ((req.get "data").get "payload").as_str = some ph)
    (hx : hexDecode ph = some bs)
    (hu : utf8Decode bs = some s)
    (hact : parseInputAction s = some act)
    (hms : ((((req.get "data").get "metadata").get "msg_sender")).as_str = none)
    (hbn : ((((req.get "data").get "metadata").get "block_number")).as_u64 = none) :
    handle_advance st req fid now = dispatchAction st act zeroAddress 0 fid now ∧
    ∃ v, (handle_advance st req fid now).1 = .ok v := by
  have heq : handle_advance st req fid now =
      dispatchAction st act zeroAddress 0 fid now := by
    simp [handle_advance, hp, hx, hu, hact, hms, hbn]
  refine ⟨heq, ?_⟩
  rw [heq]
  exact dispatchAction_verdict_isOk st act zeroAddress 0 fid now

/-- Witness for C10: the verify request envelope carries no metadata at all,
and the handler dispatches with the zero address and block number 0. -/
theorem c10_metadata_defaults_witness :
    handle_advance [] c2Request "id-0" 0 =
      dispatchAction [] (.verify { content_hash := "abc123" }) zeroAddress 0 "id-0" 0 ∧
    ∃ v, (handle_advance [] c2Request "id-0" 0).1 = .ok v :=
  c10_metadata_defaults [] c2Request "id-0" 0
    (hexEncode (utf8Encode c2VerifyPayload)) (utf8Encode c2VerifyPayload)
    c2VerifyPayload (.verify { content_hash := "abc123" })
    rfl rfl (by decide) (by decide) rfl rfl

end NotaryDapp
